import Mathlib

/-!
Verification of the S3 JSONL upload pipeline (`scripts/upload_to_s3.py`).

This file gives a shallow embedding of the upload script and proves or refutes
the specification claims about it.  Pure string manipulation (filename parsing,
key construction) is translated directly; the effectful parts (S3 probes,
uploads, marker writes, the temp-file lifecycle of compression) are modelled by
explicit environment oracles that say, for each call the script would make,
how the outside world answers (object exists / 404 / error raised, transfer
succeeds or raises, unlink succeeds or raises, ...).  The orchestrator `main`
is then a pure function from configuration, directory contents and such an
environment to a run report: the process exit code, the ordered trace of
S3-level calls, the per-file outcomes and the summary counters.
-/

/-! ## Structural validator (`validate_jsonl`)

A line of the input file is abstracted by how `line.strip()` /
`json.loads(line)` behave on it: blank after stripping, a valid JSON document,
or invalid JSON with the parse-error text `msg`.  The OS-level read-error
branch (`except Exception` around the whole loop) is not modelled: the claims
are about file contents, and that branch only fires when the file cannot be
read at all. -/

inductive LineKind where
  | blank : LineKind
  | jsonOk : LineKind
  | jsonBad (msg : String) : LineKind
deriving DecidableEq

/-- The loop of `validate_jsonl`: `n` is the 1-based number of the next line
(`enumerate(f, 1)` counts blank lines too), `c` the count of records parsed so
far (`line_count`). -/
def validateAux : List LineKind → Nat → Nat → Bool × Option String × Nat
  | [], _, c => if c = 0 then (false, some "File is empty", 0) else (true, none, c)
  | l :: ls, n, c =>
    match l with
    | LineKind.blank => validateAux ls (n + 1) c
    | LineKind.jsonOk => validateAux ls (n + 1) (c + 1)
    | LineKind.jsonBad msg =>
        (false, some ("Invalid JSON at line " ++ toString n ++ ": " ++ msg), c)

/-- `validate_jsonl`: returns `(is_valid, error_message, line_count)`. -/
def validate_jsonl (lines : List LineKind) : Bool × Option String × Nat :=
  validateAux lines 1 0

/-! ## Name parser (`parse_filename`) -/

/-- The pattern removed by `filename.replace(".jsonl", "")`. -/
def extJsonl : List Char := ['.', 'j', 's', 'o', 'n', 'l']

/-- Python `str.replace(".jsonl", "")`: removes every occurrence, scanning left
to right, non-overlapping.  The `Nat` argument is structural fuel; one unit is
spent per character examined, so `fuel = length` always suffices. -/
def stripJsonlAux : Nat → List Char → List Char
  | 0, cs => cs
  | _, [] => []
  | fuel + 1, c :: cs =>
    if extJsonl.isPrefixOf (c :: cs) then stripJsonlAux fuel (cs.drop 5)
    else c :: stripJsonlAux fuel cs

def removeJsonl (s : String) : String := String.mk (stripJsonlAux s.data.length s.data)

/-- Python `name.split("_", 1)` restricted to the information the script uses:
`some (a, b)` when the string is `a ++ "_" ++ b` with `a` underscore-free
(split at the first underscore), `none` when there is no underscore at all
(the `len(parts) != 2` branch). -/
def splitFirstUnderscore : List Char → Option (List Char × List Char)
  | [] => none
  | c :: cs =>
    if c = '_' then some ([], cs)
    else
      match splitFirstUnderscore cs with
      | none => none
      | some (a, b) => some (c :: a, b)

/-- The static alias table `source_mapping` of `parse_filename`. -/
def source_mapping : List (String × String) :=
  [("stripe", "stripe"), ("sf", "salesforce"), ("zendesk", "zendesk"),
   ("harvest", "harvest"), ("jira", "jira"), ("mixpanel", "mixpanel"),
   ("intacct", "intacct")]

/-- `source_mapping.get(source_prefix, source_prefix)`: unknown keys pass
through unchanged. -/
def resolveSource (p : String) : String :=
  match source_mapping.lookup p with
  | some v => v
  | none => p

/-- `parse_filename`: remove every `.jsonl` occurrence, split at the first
underscore, resolve the source prefix through the alias table.  `Except.error`
models the raised `ValueError`. -/
def parse_filename (filename : String) : Except String (String × String) :=
  let nameWithoutExt := removeJsonl filename
  match splitFirstUnderscore nameWithoutExt.data with
  | none =>
      Except.error ("Invalid filename format: " ++ filename ++
        ". Expected format: source_table.jsonl")
  | some (a, b) => Except.ok (resolveSource (String.mk a), String.mk b)

/-! ## Discovery scanner (`scan_directory`) -/

/-- The fields of `FileMetadata` the pipeline uses (`size` only feeds the
display table and is omitted). -/
structure FileMeta where
  name : String
  source : String
  table : String
deriving DecidableEq

/-- One `*.jsonl` file found by `source_dir.glob`, abstracted by its name and
the line-by-line behaviour of its content. -/
structure DirEntry where
  name : String
  lines : List LineKind
deriving DecidableEq

/-- `scan_directory`: per file, `parse_filename` (a `ValueError` rejects the
file), then `validate_jsonl` (invalid rejects the file); admitted files keep
the directory order. -/
def scan_directory (entries : List DirEntry) : List FileMeta :=
  entries.filterMap fun e =>
    match parse_filename e.name with
    | Except.error _ => none
    | Except.ok (source, table) =>
      match validate_jsonl e.lines with
      | (true, _, _) => some ⟨e.name, source, table⟩
      | (false, _, _) => none

/-! ## Partition path builder -/

/-- `generate_s3_path`. -/
def generate_s3_path (client source table run_date filename : String)
    (compress : Bool) : String :=
  "clients/" ++ client ++ "/" ++ source ++ "/" ++ table ++ "/run_date=" ++
    run_date ++ "/" ++ filename ++ (if compress then ".gz" else "")

/-- `generate_success_marker_path`. -/
def generate_success_marker_path (client source table run_date : String) : String :=
  "clients/" ++ client ++ "/" ++ source ++ "/" ++ table ++ "/run_date=" ++
    run_date ++ "/_SUCCESS"

/-! ## Environment oracles -/

/-- How `s3_client.head_object` answers inside `check_file_exists`: the object
is there, a 404 `ClientError` (mapped to `false`), or any other error — which
`check_file_exists` re-raises. -/
inductive ProbeResult where
  | found : ProbeResult
  | notFound : ProbeResult
  | err : ProbeResult
deriving DecidableEq

/-- `check_file_exists`: `head_object`, with 404 mapped to `false` and every
other `ClientError` re-raised (`Except.error`). -/
def check_file_exists : ProbeResult → Except Unit Bool
  | ProbeResult.found => Except.ok true
  | ProbeResult.notFound => Except.ok false
  | ProbeResult.err => Except.error ()

/-- How `compress_file` behaves: it succeeds; or it raises before the
destination file is created (e.g. the source cannot be opened); or it raises
after `gzip.open` has already created the destination file (e.g. a write
fails). -/
inductive CompressOutcome where
  | success : CompressOutcome
  | failBeforeCreate : CompressOutcome
  | failAfterCreate : CompressOutcome
deriving DecidableEq

/-- The world's answers to every call made while processing one file. -/
structure FileEnv where
  probe : ProbeResult
  compressRes : CompressOutcome
  transferOk : Bool
  unlinkOk : Bool
deriving DecidableEq

/-- How `head_bucket` (the credentials / bucket-access test) answers. -/
inductive BucketCheck where
  | ok : BucketCheck
  | noCreds : BucketCheck
  | notFound : BucketCheck
  | accessDenied : BucketCheck
  | otherError : BucketCheck
deriving DecidableEq

/-- The whole external world for one run.  `file i` answers the calls made for
the `i`-th admitted file, `markerOk key` says whether `put_object` on `key`
succeeds, `now` abstracts `datetime.utcnow().isoformat()`. -/
structure S3Env where
  bucket : BucketCheck
  file : Nat → FileEnv
  markerOk : String → Bool
  now : String

/-! ## Upload engine (`upload_file`, `upload_success_marker`) -/

/-- JSON body of a `_SUCCESS` marker, as built by `upload_success_marker`. -/
structure MarkerBody where
  uploaded_at : String
  file_count : Nat
  status : String
deriving DecidableEq

/-- `json.dumps({...})` inside `upload_success_marker`. -/
def marker_content (now : String) (fileCount : Nat) : MarkerBody :=
  ⟨now, fileCount, "complete"⟩

/-- One S3-level call performed by the script, in program order. -/
inductive S3Event where
  | createClient : S3Event
  | headBucket : S3Event
  | headObject (key : String) : S3Event
  | engineUpload (key : String) : S3Event
  | s3Transfer (key : String) : S3Event
  | putMarker (key : String) (body : MarkerBody) : S3Event
deriving DecidableEq

def S3Event.isMarkerWrite : S3Event → Bool
  | S3Event.putMarker _ _ => true
  | _ => false

def S3Event.isProbe : S3Event → Bool
  | S3Event.headObject _ => true
  | _ => false

def S3Event.isEngineUpload : S3Event → Bool
  | S3Event.engineUpload _ => true
  | _ => false

/-- Fate of the temporary compressed artifact `/tmp/{name}.gz`. -/
inductive ArtifactState where
  | notCreated : ArtifactState
  | removed : ArtifactState
  | leaked : ArtifactState
deriving DecidableEq

structure UploadResult where
  success : Bool
  events : List S3Event
  artifact : ArtifactState
deriving DecidableEq

/-- `upload_file`, line by line:
- dry-run returns `True` at once, no I/O;
- with compression, `compress_file` runs first; if it raises, the `except`
  block sees `"compressed_path" not in locals()` and does *not* clean up, so
  an artifact created before the failure is left behind (`leaked`);
- `s3_client.upload_file` is called (`s3Transfer`); on success the artifact is
  unlinked — if that unlink raises, the outer `except` catches it, retries the
  unlink (which fails again), and the function returns `False`;
- on transfer failure the `except` block unlinks the artifact, tolerating a
  second failure of the unlink itself. -/
def upload_file (compress dryRun : Bool) (key : String) (fe : FileEnv) : UploadResult :=
  if dryRun then ⟨true, [], ArtifactState.notCreated⟩
  else if compress then
    match fe.compressRes with
    | CompressOutcome.failBeforeCreate => ⟨false, [], ArtifactState.notCreated⟩
    | CompressOutcome.failAfterCreate => ⟨false, [], ArtifactState.leaked⟩
    | CompressOutcome.success =>
      if fe.transferOk then
        if fe.unlinkOk then ⟨true, [S3Event.s3Transfer key], ArtifactState.removed⟩
        else ⟨false, [S3Event.s3Transfer key], ArtifactState.leaked⟩
      else
        if fe.unlinkOk then ⟨false, [S3Event.s3Transfer key], ArtifactState.removed⟩
        else ⟨false, [S3Event.s3Transfer key], ArtifactState.leaked⟩
  else ⟨fe.transferOk, [S3Event.s3Transfer key], ArtifactState.notCreated⟩

/-! ## Per-file step of the upload loop -/

/-- The `UploadOutcome` of the data model: per-file terminal state. -/
inductive UploadOutcome where
  | uploaded : UploadOutcome
  | skippedAlreadyExists : UploadOutcome
  | failed : UploadOutcome
deriving DecidableEq

structure FileStep where
  outcome : UploadOutcome
  events : List S3Event
deriving DecidableEq

/-- The body of the `for fm in file_metadata` loop of `main` for one file:
`if not force and check_file_exists(...)` skips; otherwise `upload_file` runs
and its boolean picks uploaded/failed.  `Except.error` is the uncaught
exception re-raised by `check_file_exists` — `main` has no handler around the
loop, so it propagates (the events that already happened travel with it). -/
def processFile (force compress : Bool) (key : String) (fe : FileEnv) :
    Except (List S3Event) FileStep :=
  if force then
    let r := upload_file compress false key fe
    Except.ok ⟨if r.success then UploadOutcome.uploaded else UploadOutcome.failed,
      S3Event.engineUpload key :: r.events⟩
  else
    match check_file_exists fe.probe with
    | Except.error _ => Except.error [S3Event.headObject key]
    | Except.ok true => Except.ok ⟨UploadOutcome.skippedAlreadyExists, [S3Event.headObject key]⟩
    | Except.ok false =>
      let r := upload_file compress false key fe
      Except.ok ⟨if r.success then UploadOutcome.uploaded else UploadOutcome.failed,
        S3Event.headObject key :: S3Event.engineUpload key :: r.events⟩

/-- The destination key `main` computes for a file. -/
def keyOf (client runDate : String) (compress : Bool) (f : FileMeta) : String :=
  generate_s3_path client f.source f.table runDate f.name compress

/-- Specification view of one file's terminal outcome (used to state theorems;
it agrees with `processFile` whenever the probe does not raise). -/
def fileOutcome (force compress : Bool) (key : String) (fe : FileEnv) : UploadOutcome :=
  if force then
    if (upload_file compress false key fe).success then UploadOutcome.uploaded
    else UploadOutcome.failed
  else
    match fe.probe with
    | ProbeResult.found => UploadOutcome.skippedAlreadyExists
    | _ =>
      if (upload_file compress false key fe).success then UploadOutcome.uploaded
      else UploadOutcome.failed

/-! ## Upload loop and grouping -/

inductive LoopResult where
  | crash (events : List S3Event) : LoopResult
  | done (outcomes : List UploadOutcome) (events : List S3Event) : LoopResult
deriving DecidableEq

/-- The `for fm in file_metadata` loop: `i` indexes into the environment; an
uncaught probe exception aborts the remaining files. -/
def uploadLoop (client runDate : String) (force compress : Bool)
    (env : Nat → FileEnv) : Nat → List FileMeta → LoopResult
  | _, [] => LoopResult.done [] []
  | i, f :: fs =>
    match processFile force compress (keyOf client runDate compress f) (env i) with
    | Except.error evs => LoopResult.crash evs
    | Except.ok step =>
      match uploadLoop client runDate force compress env (i + 1) fs with
      | LoopResult.crash evs => LoopResult.crash (step.events ++ evs)
      | LoopResult.done os evs => LoopResult.done (step.outcome :: os) (step.events ++ evs)

def groupKey (f : FileMeta) : String × String := (f.source, f.table)

/-- First-occurrence deduplication, mirroring Python dict insertion order:
the keys of `source_table_groups` in the order markers are emitted. -/
def firstOccAux {α : Type} [DecidableEq α] (seen : List α) : List α → List α
  | [] => []
  | k :: ks => if k ∈ seen then firstOccAux seen ks else k :: firstOccAux (k :: seen) ks

/-- The `(source, table)` keys of `source_table_groups`, in insertion order. -/
def groupKeys (files : List FileMeta) : List (String × String) :=
  firstOccAux [] (files.map groupKey)

/-- `len(source_table_groups[k])`: how many admitted files fall in group `k`. -/
def groupCount (files : List FileMeta) (k : String × String) : Nat :=
  (files.filter fun f => groupKey f = k).length

/-- The `_SUCCESS` key `main` computes for a group. -/
def markerKeyOf (client runDate : String) (k : String × String) : String :=
  generate_success_marker_path client k.1 k.2 runDate

/-! ## Run orchestrator (`main`) -/

/-- Command-line configuration after Click parsing.  `runDateValid` abstracts
whether `datetime.strptime(run_date, "%Y-%m-%d")` succeeds; `compress` is
`not no_compress`. -/
structure Config where
  client : String
  runDate : String
  runDateValid : Bool
  dryRun : Bool
  force : Bool
  compress : Bool
deriving DecidableEq

/-- Everything observable about one run: whether an uncaught exception escaped
`main` (a crash — the interpreter then exits 1 with a traceback), the process
exit code, the ordered S3 call trace, the per-file outcomes in file order, the
result of each group's marker write in group order, and the summary
counters. -/
structure RunReport where
  crashed : Bool
  exitCode : Nat
  events : List S3Event
  outcomes : List UploadOutcome
  markerResults : List Bool
  uploadedCount : Nat
  skippedCount : Nat
  failedCount : Nat
deriving DecidableEq

/-- `mainRun` models `main`, after Click has accepted the arguments:
1. validate `run_date`, else exit 1;
2. scan the directory; exit 0 if nothing was admitted;
3. if not dry-run, build the client and `head_bucket` (any failure exits 1);
   in dry-run the client is never constructed;
4. (dry-run: print the plan and return — exit 0, no S3 call ever made);
5. upload loop;
6. one `_SUCCESS` marker per `(source, table)` group, `file_count` = group
   size; the boolean result of each write is only used for logging;
7. exit 1 iff `failed_count > 0`.
Note the dry-run return sits *after* the empty-directory exit, matching the
source order (lines 404, 411, 468). -/
def mainRun (cfg : Config) (entries : List DirEntry) (env : S3Env) : RunReport :=
  if cfg.runDateValid = false then ⟨false, 1, [], [], [], 0, 0, 0⟩
  else if scan_directory entries = [] then ⟨false, 0, [], [], [], 0, 0, 0⟩
  else if cfg.dryRun then ⟨false, 0, [], [], [], 0, 0, 0⟩
  else
    match env.bucket with
    | BucketCheck.ok =>
      let files := scan_directory entries
      match uploadLoop cfg.client cfg.runDate cfg.force cfg.compress env.file 0 files with
      | LoopResult.crash evs =>
          ⟨true, 1, S3Event.createClient :: S3Event.headBucket :: evs, [], [], 0, 0, 0⟩
      | LoopResult.done outcomes evs =>
          let groups := groupKeys files
          let markerEvs := groups.map fun k =>
            S3Event.putMarker (markerKeyOf cfg.client cfg.runDate k)
              (marker_content env.now (groupCount files k))
          let markerRes := groups.map fun k => env.markerOk (markerKeyOf cfg.client cfg.runDate k)
          let failed := outcomes.count UploadOutcome.failed
          ⟨false, if failed = 0 then 0 else 1,
            S3Event.createClient :: S3Event.headBucket :: (evs ++ markerEvs),
            outcomes, markerRes,
            outcomes.count UploadOutcome.uploaded,
            outcomes.count UploadOutcome.skippedAlreadyExists, failed⟩
    | _ => ⟨false, 1, [S3Event.createClient, S3Event.headBucket], [], [], 0, 0, 0⟩

/-! ## Concrete fixtures used to instantiate the theorems -/

/-- Default-flag configuration: valid run date, not dry-run, no force,
compression on (matching the script's defaults). -/
def cfgStd : Config := ⟨"wise", "2025-12-17", true, false, false, true⟩

/-- Same configuration with the dry-run flag set. -/
def cfgDry : Config := ⟨"wise", "2025-12-17", true, true, false, true⟩

/-- A file for which every call succeeds and the destination is absent. -/
def feOk : FileEnv := ⟨ProbeResult.notFound, CompressOutcome.success, true, true⟩

/-- Destination absent, compression fine, but the transfer itself fails. -/
def feFailTransfer : FileEnv := ⟨ProbeResult.notFound, CompressOutcome.success, false, true⟩

/-- Destination object already exists. -/
def feExists : FileEnv := ⟨ProbeResult.found, CompressOutcome.success, true, true⟩

/-- The existence probe raises a non-404 error. -/
def feProbeErr : FileEnv := ⟨ProbeResult.err, CompressOutcome.success, true, true⟩

/-- `compress_file` raises after `gzip.open` created the temp file. -/
def feCompressLeak : FileEnv := ⟨ProbeResult.notFound, CompressOutcome.failAfterCreate, true, true⟩

/-- Three well-formed files spanning two `(source, table)` groups:
`(stripe, customers)`, `(stripe, invoices)`, `(salesforce, accounts)`. -/
def entriesTwoGroups : List DirEntry :=
  [⟨"stripe_customers.jsonl", [LineKind.jsonOk]⟩,
   ⟨"stripe_invoices.jsonl", [LineKind.jsonOk]⟩,
   ⟨"sf_accounts.jsonl", [LineKind.jsonOk]⟩]

/-- One well-formed file. -/
def entriesOne : List DirEntry := [⟨"stripe_customers.jsonl", [LineKind.jsonOk]⟩]

/-- Healthy world: bucket reachable, every upload succeeds, marker writes
succeed. -/
def envOk : S3Env := ⟨BucketCheck.ok, fun _ => feOk, fun _ => true, "2025-12-17T00:00:00"⟩

/-- Every file transfer fails; everything else healthy. -/
def envAllFail : S3Env :=
  ⟨BucketCheck.ok, fun _ => feFailTransfer, fun _ => true, "2025-12-17T00:00:00"⟩

/-- Uploads succeed but every `_SUCCESS` `put_object` fails. -/
def envMarkerFail : S3Env :=
  ⟨BucketCheck.ok, fun _ => feOk, fun _ => false, "2025-12-17T00:00:00"⟩

/-- Every existence probe raises a non-404 error. -/
def envProbeErr : S3Env :=
  ⟨BucketCheck.ok, fun _ => feProbeErr, fun _ => true, "2025-12-17T00:00:00"⟩

/-- No AWS credentials available. -/
def envNoCreds : S3Env :=
  ⟨BucketCheck.noCreds, fun _ => feOk, fun _ => true, "2025-12-17T00:00:00"⟩

/-! ## Helper lemmas -/

lemma upload_file_events (c d : Bool) (key : String) (fe : FileEnv) :
    (upload_file c d key fe).events = [] ∨
      (upload_file c d key fe).events = [S3Event.s3Transfer key] := by
  obtain ⟨p, cr, t, u⟩ := fe
  cases d <;> cases c <;> cases cr <;> cases t <;> cases u <;> simp [upload_file]

lemma upload_file_events_no_marker (c d : Bool) (key : String) (fe : FileEnv) :
    ∀ e ∈ (upload_file c d key fe).events, e.isMarkerWrite = false := by
  intro e he
  rcases upload_file_events c d key fe with h | h <;> rw [h] at he <;> simp at he
  subst he; rfl

lemma processFile_spec (force compress : Bool) (key : String) (fe : FileEnv)
    (h : force = true ∨ fe.probe ≠ ProbeResult.err) :
    ∃ evs, processFile force compress key fe =
        Except.ok ⟨fileOutcome force compress key fe, evs⟩ ∧
      ∀ e ∈ evs, e.isMarkerWrite = false := by
  cases hf : force with
  | true =>
    refine ⟨S3Event.engineUpload key :: (upload_file compress false key fe).events, ?_, ?_⟩
    · simp [processFile, fileOutcome]
    · intro e he
      cases he with
      | head => rfl
      | tail _ he => exact upload_file_events_no_marker compress false key fe e he
  | false =>
    have hp : fe.probe ≠ ProbeResult.err := by
      rcases h with h | h
      · rw [hf] at h; cases h
      · exact h
    cases hpr : fe.probe with
    | err => exact absurd hpr hp
    | found =>
      refine ⟨[S3Event.headObject key], ?_, ?_⟩
      · simp [processFile, check_file_exists, fileOutcome, hpr]
      · intro e he; simp at he; subst he; rfl
    | notFound =>
      refine ⟨S3Event.headObject key :: S3Event.engineUpload key ::
        (upload_file compress false key fe).events, ?_, ?_⟩
      · simp [processFile, check_file_exists, fileOutcome, hpr]
      · intro e he
        cases he with
        | head => rfl
        | tail _ he =>
          cases he with
          | head => rfl
          | tail _ he => exact upload_file_events_no_marker compress false key fe e he

lemma uploadLoop_spec (client runDate : String) (force compress : Bool)
    (env : Nat → FileEnv)
    (h : force = true ∨ ∀ j, (env j).probe ≠ ProbeResult.err) :
    ∀ (files : List FileMeta) (i : Nat),
    ∃ evs, uploadLoop client runDate force compress env i files =
        LoopResult.done
          ((files.enumFrom i).map fun p =>
            fileOutcome force compress (keyOf client runDate compress p.2) (env p.1))
          evs ∧
      ∀ e ∈ evs, e.isMarkerWrite = false := by
  intro files
  induction files with
  | nil => intro i; exact ⟨[], rfl, by intro e he; cases he⟩
  | cons f fs ih =>
    intro i
    have hf : force = true ∨ (env i).probe ≠ ProbeResult.err := by
      rcases h with h | h
      · exact Or.inl h
      · exact Or.inr (h i)
    obtain ⟨evs1, hp, hm1⟩ := processFile_spec force compress
      (keyOf client runDate compress f) (env i) hf
    obtain ⟨evs2, hl, hm2⟩ := ih (i + 1)
    refine ⟨evs1 ++ evs2, ?_, ?_⟩
    · simp only [uploadLoop, hp, hl, List.enumFrom, List.map]
    · intro e he
      rcases List.mem_append.mp he with he | he
      · exact hm1 e he
      · exact hm2 e he

lemma mem_firstOccAux {α : Type} [DecidableEq α] (l : List α) :
    ∀ (seen : List α) (k : α), k ∈ firstOccAux seen l ↔ k ∈ l ∧ k ∉ seen := by
  induction l with
  | nil => intro seen k; simp [firstOccAux]
  | cons x xs ih =>
    intro seen k
    by_cases hx : x ∈ seen
    · rw [firstOccAux, if_pos hx, ih seen k]
      constructor
      · rintro ⟨h1, h2⟩; exact ⟨List.mem_cons_of_mem x h1, h2⟩
      · rintro ⟨h1, h2⟩
        rcases List.mem_cons.mp h1 with rfl | h1
        · exact absurd hx h2
        · exact ⟨h1, h2⟩
    · rw [firstOccAux, if_neg hx]
      constructor
      · intro hmem
        rcases List.mem_cons.mp hmem with rfl | hmem
        · exact ⟨List.mem_cons_self k xs, hx⟩
        · obtain ⟨h1, h2⟩ := (ih (x :: seen) k).mp hmem
          refine ⟨List.mem_cons_of_mem x h1, fun hk => h2 (List.mem_cons_of_mem x hk)⟩
      · rintro ⟨h1, h2⟩
        rcases List.mem_cons.mp h1 with rfl | h1
        · exact List.mem_cons_self k _
        · by_cases hk : k = x
          · subst hk; exact List.mem_cons_self k _
          · exact List.mem_cons_of_mem x ((ih (x :: seen) k).mpr
              ⟨h1, by simp [hk, h2]⟩)

lemma nodup_firstOccAux {α : Type} [DecidableEq α] (l : List α) :
    ∀ seen : List α, (firstOccAux seen l).Nodup := by
  induction l with
  | nil => intro seen; simp [firstOccAux]
  | cons x xs ih =>
    intro seen
    by_cases hx : x ∈ seen
    · rw [firstOccAux, if_pos hx]; exact ih seen
    · rw [firstOccAux, if_neg hx]
      refine List.Nodup.cons ?_ (ih (x :: seen))
      intro hmem
      obtain ⟨_, h2⟩ := (mem_firstOccAux xs (x :: seen) x).mp hmem
      exact h2 (List.mem_cons_self x seen)

lemma mem_groupKeys (files : List FileMeta) (k : String × String) :
    k ∈ groupKeys files ↔ k ∈ files.map groupKey := by
  rw [groupKeys, mem_firstOccAux]
  simp

lemma nodup_groupKeys (files : List FileMeta) : (groupKeys files).Nodup :=
  nodup_firstOccAux _ []

lemma validateAux_allBlank (lines : List LineKind)
    (h : ∀ l ∈ lines, l = LineKind.blank) :
    ∀ n : Nat, validateAux lines n 0 = (false, some "File is empty", 0) := by
  induction lines with
  | nil => intro n; rfl
  | cons l ls ih =>
    intro n
    have hl : l = LineKind.blank := h l (List.mem_cons_self l ls)
    subst hl
    rw [validateAux]
    exact ih (fun x hx => h x (List.mem_cons_of_mem _ hx)) (n + 1)

lemma validateAux_badAt (msg : String) (rest : List LineKind) :
    ∀ (pre : List LineKind), (∀ l ∈ pre, l = LineKind.blank ∨ l = LineKind.jsonOk) →
    ∀ (n c : Nat),
    validateAux (pre ++ LineKind.jsonBad msg :: rest) n c =
      (false, some ("Invalid JSON at line " ++ toString (n + pre.length) ++ ": " ++ msg),
       c + pre.count LineKind.jsonOk) := by
  intro pre
  induction pre with
  | nil => intro _ n c; simp [validateAux]
  | cons l ls ih =>
    intro h n c
    have hls : ∀ x ∈ ls, x = LineKind.blank ∨ x = LineKind.jsonOk :=
      fun x hx => h x (List.mem_cons_of_mem _ hx)
    have hlen : (n + 1) + ls.length = n + (l :: ls).length := by
      simp [List.length_cons]; omega
    rcases h l (List.mem_cons_self l ls) with hl | hl <;> subst hl
    · rw [List.cons_append, validateAux, ih hls (n + 1) c, hlen]
      simp [List.count_cons]
    · rw [List.cons_append, validateAux, ih hls (n + 1) (c + 1), hlen]
      simp [List.count_cons]
      omega

lemma splitFirstUnderscore_append (s2 : List Char) :
    ∀ s1 : List Char, '_' ∉ s1 →
    splitFirstUnderscore (s1 ++ '_' :: s2) = some (s1, s2) := by
  intro s1
  induction s1 with
  | nil => intro _; simp [splitFirstUnderscore]
  | cons c cs ih =>
    intro h
    have hc : ¬(c = '_') := fun hc => h (hc ▸ List.mem_cons_self c cs)
    have hcs : '_' ∉ cs := fun hm => h (List.mem_cons_of_mem c hm)
    rw [List.cons_append, splitFirstUnderscore, if_neg hc, ih hcs]

lemma length_enumFrom {α : Type} : ∀ (l : List α) (i : Nat),
    (List.enumFrom i l).length = l.length := by
  intro l
  induction l with
  | nil => intro i; rfl
  | cons x xs ih => intro i; simp [List.enumFrom, ih]

lemma envAllFail_probe_safe : ∀ j, (envAllFail.file j).probe ≠ ProbeResult.err := by
  intro j h
  simp [envAllFail, feFailTransfer] at h

lemma envOk_probe_safe : ∀ j, (envOk.file j).probe ≠ ProbeResult.err := by
  intro j h
  simp [envOk, feOk] at h

lemma get?_enumFrom {α : Type} : ∀ (l : List α) (n i : Nat),
    (List.enumFrom n l).get? i = (l.get? i).map (fun a => (n + i, a)) := by
  intro l
  induction l with
  | nil => intro n i; rfl
  | cons x xs ih =>
    intro n i
    cases i with
    | zero => rfl
    | succ j =>
      show (List.enumFrom (n + 1) xs).get? j =
        (xs.get? j).map (fun a => (n + (j + 1), a))
      rw [ih (n + 1) j]
      have h : (n + 1) + j = n + (j + 1) := by omega
      rw [h]

/-- A file that actually reaches the upload step (forced, or probed absent)
and whose `upload_file` returns `False` ends with outcome `Failed`. -/
lemma fileOutcome_failed (force compress : Bool) (key : String) (fe : FileEnv)
    (hreach : force = true ∨ fe.probe = ProbeResult.notFound)
    (hfail : (upload_file compress false key fe).success = false) :
    fileOutcome force compress key fe = UploadOutcome.failed := by
  cases hfor : force with
  | true => simp [fileOutcome, hfail]
  | false =>
    have hp : fe.probe = ProbeResult.notFound := by
      rcases hreach with h | h
      · rw [hfor] at h; cases h
      · exact h
    simp [fileOutcome, hp, hfail]

/-- Without `force`, the first file whose existence probe raises makes the
whole loop crash, wherever it sits in the batch. -/
lemma uploadLoop_crash (client runDate : String) (compress : Bool)
    (env : Nat → FileEnv) :
    ∀ (files : List FileMeta) (i0 i : Nat) (f : FileMeta),
    files.get? i = some f →
    (env (i0 + i)).probe = ProbeResult.err →
    (∀ j, j < i → (env (i0 + j)).probe ≠ ProbeResult.err) →
    ∃ evs, uploadLoop client runDate false compress env i0 files =
      LoopResult.crash evs := by
  intro files
  induction files with
  | nil => intro i0 i f hget _ _; simp at hget
  | cons g gs ih =>
    intro i0 i f hget hperr hprev
    cases i with
    | zero =>
      have hp : (env i0).probe = ProbeResult.err := by simpa using hperr
      refine ⟨[S3Event.headObject (keyOf client runDate compress g)], ?_⟩
      rw [uploadLoop]
      simp [processFile, check_file_exists, hp]
    | succ j =>
      have hp0 : (env i0).probe ≠ ProbeResult.err := by
        have := hprev 0 (Nat.succ_pos j)
        simpa using this
      have hget' : gs.get? j = some f := by simpa using hget
      have hperr' : (env ((i0 + 1) + j)).probe = ProbeResult.err := by
        have h : i0 + (j + 1) = (i0 + 1) + j := by omega
        rw [← h]
        exact hperr
      have hprev' : ∀ j', j' < j → (env ((i0 + 1) + j')).probe ≠ ProbeResult.err := by
        intro j' hj'
        have h : (i0 + 1) + j' = i0 + (j' + 1) := by omega
        rw [h]
        exact hprev (j' + 1) (by omega)
      obtain ⟨evs, hcr⟩ := ih (i0 + 1) j f hget' hperr' hprev'
      obtain ⟨evs1, hp, hm⟩ := processFile_spec false compress
        (keyOf client runDate compress g) (env i0) (Or.inr hp0)
      refine ⟨evs1 ++ evs, ?_⟩
      rw [uploadLoop, hp, hcr]

/-- Master lemma: under a valid, non-dry-run configuration with a reachable
bucket, a non-empty admitted list and no probe error, `mainRun` reaches the
marking step and its report is the `done` branch: outcomes are the per-file
`fileOutcome`s, the trace is client init, then the marker-free file events,
then exactly one `putMarker` per group key, and the exit code is decided by
the failed count. -/
lemma mainRun_spec (cfg : Config) (entries : List DirEntry) (env : S3Env)
    (hdate : cfg.runDateValid = true) (hdry : cfg.dryRun = false)
    (hbucket : env.bucket = BucketCheck.ok)
    (hne : scan_directory entries ≠ [])
    (hsafe : cfg.force = true ∨ ∀ j, (env.file j).probe ≠ ProbeResult.err) :
    ∃ evs,
      (∀ e ∈ evs, e.isMarkerWrite = false) ∧
      mainRun cfg entries env =
        ⟨false,
         if (((scan_directory entries).enumFrom 0).map fun p =>
              fileOutcome cfg.force cfg.compress
                (keyOf cfg.client cfg.runDate cfg.compress p.2) (env.file p.1)).count
              UploadOutcome.failed = 0 then 0 else 1,
         S3Event.createClient :: S3Event.headBucket ::
           (evs ++ (groupKeys (scan_directory entries)).map fun k =>
             S3Event.putMarker (markerKeyOf cfg.client cfg.runDate k)
               (marker_content env.now (groupCount (scan_directory entries) k))),
         ((scan_directory entries).enumFrom 0).map fun p =>
           fileOutcome cfg.force cfg.compress
             (keyOf cfg.client cfg.runDate cfg.compress p.2) (env.file p.1),
         (groupKeys (scan_directory entries)).map fun k =>
           env.markerOk (markerKeyOf cfg.client cfg.runDate k),
         (((scan_directory entries).enumFrom 0).map fun p =>
           fileOutcome cfg.force cfg.compress
             (keyOf cfg.client cfg.runDate cfg.compress p.2) (env.file p.1)).count
           UploadOutcome.uploaded,
         (((scan_directory entries).enumFrom 0).map fun p =>
           fileOutcome cfg.force cfg.compress
             (keyOf cfg.client cfg.runDate cfg.compress p.2) (env.file p.1)).count
           UploadOutcome.skippedAlreadyExists,
         (((scan_directory entries).enumFrom 0).map fun p =>
           fileOutcome cfg.force cfg.compress
             (keyOf cfg.client cfg.runDate cfg.compress p.2) (env.file p.1)).count
           UploadOutcome.failed⟩ := by
  obtain ⟨evs, hloop, hm⟩ :=
    uploadLoop_spec cfg.client cfg.runDate cfg.force cfg.compress env.file hsafe
      (scan_directory entries) 0
  refine ⟨evs, hm, ?_⟩
  rw [mainRun, hdate, hdry, if_neg (by simp), if_neg hne, if_neg (by simp), hbucket]
  dsimp only
  rw [hloop]

/-! ## Claim theorems -/

/-- C10: a filename that begins with the delimiter, such as `_accounts.jsonl`,
parses successfully with an empty-string source identifier (the alias table
maps the unknown empty prefix to itself), such a file is admitted by the scan
when its content is valid, and the generated object key then contains an empty
path segment: `clients/wise//accounts/...`. -/
theorem claim_C10_empty_source_segment :
    parse_filename "_accounts.jsonl" = Except.ok ("", "accounts")
    ∧ scan_directory [⟨"_accounts.jsonl", [LineKind.jsonOk]⟩] =
        [⟨"_accounts.jsonl", "", "accounts"⟩]
    ∧ generate_s3_path "wise" "" "accounts" "2025-12-17" "_accounts.jsonl" true =
        "clients/wise//accounts/run_date=2025-12-17/_accounts.jsonl.gz" :=
  ⟨rfl, rfl, rfl⟩

/-- C4: per admitted file in a non-dry-run invocation: with `force` false and
the destination object existing, the engine performs only the probe — zero
calls to the upload routine (hence zero transfers) — and the outcome is
`Skipped-AlreadyExists`, returned normally (no error); with `force` true the
probe is skipped entirely and the upload routine `upload_file` is invoked
exactly once, whatever the probe oracle would have answered (i.e. regardless
of whether the object exists). -/
theorem claim_C4_skip_and_force (compress : Bool) (key : String) (fe : FileEnv) :
    (fe.probe = ProbeResult.found →
      processFile false compress key fe =
        Except.ok ⟨UploadOutcome.skippedAlreadyExists, [S3Event.headObject key]⟩)
    ∧ ∃ step, processFile true compress key fe = Except.ok step
        ∧ step.events.countP S3Event.isEngineUpload = 1
        ∧ step.events.countP S3Event.isProbe = 0 := by
  constructor
  · intro hp
    simp [processFile, check_file_exists, hp]
  · refine ⟨⟨if (upload_file compress false key fe).success then UploadOutcome.uploaded
        else UploadOutcome.failed,
      S3Event.engineUpload key :: (upload_file compress false key fe).events⟩, ?_, ?_, ?_⟩
    · simp [processFile]
    · rcases upload_file_events compress false key fe with h | h <;>
        rw [h] <;>
        simp [List.countP_cons, S3Event.isEngineUpload]
    · rcases upload_file_events compress false key fe with h | h <;>
        rw [h] <;>
        simp [List.countP_cons, S3Event.isProbe]

/-- C4 witness: instantiated at a concrete file whose destination object
already exists. -/
theorem claim_C4_skip_and_force_witness :
    (feExists.probe = ProbeResult.found
      ∧ processFile false true "k" feExists =
          Except.ok ⟨UploadOutcome.skippedAlreadyExists, [S3Event.headObject "k"]⟩)
    ∧ ∃ step, processFile true true "k" feExists = Except.ok step
        ∧ step.events.countP S3Event.isEngineUpload = 1
        ∧ step.events.countP S3Event.isProbe = 0 :=
  ⟨⟨rfl, (claim_C4_skip_and_force true "k" feExists).1 rfl⟩,
   (claim_C4_skip_and_force true "k" feExists).2⟩

/-- C6 counterexample: when `compress_file` raises after `gzip.open` has
already created the temporary file, the name `compressed_path` is unbound in
`upload_file`, its `except` block skips the cleanup (`"compressed_path" in
locals()` is false), and the artifact is left behind — refuting the claim
that the artifact is removed even when the compression step itself fails. -/
theorem claim_C6_counterexample :
    upload_file true false "k" feCompressLeak =
      ⟨false, [], ArtifactState.leaked⟩ := rfl

/-- C6 (amended): the temporary compressed artifact is removed on both success
and failure of the transfer, provided the compression step itself completed
and the `unlink` call succeeds; with compression disabled no artifact is ever
created.  (If compression fails after creating the artifact, or the unlink
itself fails, the artifact is leaked — see the counterexample.) -/
theorem claim_C6_cleanup_amended (key : String) (fe : FileEnv)
    (hc : fe.compressRes = CompressOutcome.success) (hu : fe.unlinkOk = true) :
    (upload_file true false key fe).artifact = ArtifactState.removed
    ∧ (upload_file false false key fe).artifact = ArtifactState.notCreated := by
  obtain ⟨p, cr, t, u⟩ := fe
  cases cr <;> cases t <;> cases u <;> simp_all [upload_file]

/-- C6 witness: a file whose transfer fails but whose compression and cleanup
calls succeed — the artifact is still removed. -/
theorem claim_C6_cleanup_amended_witness :
    (feFailTransfer.compressRes = CompressOutcome.success
      ∧ feFailTransfer.unlinkOk = true)
    ∧ ((upload_file true false "k" feFailTransfer).artifact = ArtifactState.removed
      ∧ (upload_file false false "k" feFailTransfer).artifact = ArtifactState.notCreated) :=
  ⟨⟨rfl, rfl⟩, claim_C6_cleanup_amended "k" feFailTransfer rfl rfl⟩

/-- C7 counterexample: a file whose only defect is a malformed line at
position 2, preceded by one valid record, is rejected reporting line 2 — but
the returned record count is 1, the number of records parsed before the bad
line, not zero as the claim states. -/
theorem claim_C7_counterexample :
    validate_jsonl [LineKind.jsonOk, LineKind.jsonBad "parse error"] =
      (false, some "Invalid JSON at line 2: parse error", 1)
    ∧ (1 : Nat) ≠ 0 :=
  ⟨rfl, by decide⟩

/-- C7 (amended): validation is fail-fast — for a file with a malformed line
at 1-based position `k = pre.length + 1`, whatever follows that line (`rest`)
is never scanned, the error reports line `k` exactly, and the returned record
count equals the number of valid records counted before line `k` (not
necessarily zero); a file containing only blank lines is rejected as empty,
with message `File is empty`. -/
theorem claim_C7_validation_amended :
    (∀ lines : List LineKind, (∀ l ∈ lines, l = LineKind.blank) →
      validate_jsonl lines = (false, some "File is empty", 0))
    ∧ ∀ (pre : List LineKind) (msg : String) (rest : List LineKind),
        (∀ l ∈ pre, l = LineKind.blank ∨ l = LineKind.jsonOk) →
        validate_jsonl (pre ++ LineKind.jsonBad msg :: rest) =
          (false,
           some ("Invalid JSON at line " ++ toString (pre.length + 1) ++ ": " ++ msg),
           pre.count LineKind.jsonOk) := by
  constructor
  · intro lines h
    exact validateAux_allBlank lines h 1
  · intro pre msg rest h
    rw [validate_jsonl, validateAux_badAt msg rest pre h 1 0]
    rw [Nat.add_comm 1 pre.length]
    simp

/-- C7 witness: one all-blank file and one file with a valid record followed
by a malformed line. -/
theorem claim_C7_validation_amended_witness :
    ((∀ l ∈ [LineKind.blank], l = LineKind.blank)
      ∧ validate_jsonl [LineKind.blank] = (false, some "File is empty", 0))
    ∧ ((∀ l ∈ [LineKind.jsonOk], l = LineKind.blank ∨ l = LineKind.jsonOk)
      ∧ validate_jsonl ([LineKind.jsonOk] ++ LineKind.jsonBad "bad" :: []) =
          (false,
           some ("Invalid JSON at line " ++ toString ([LineKind.jsonOk].length + 1) ++
             ": " ++ "bad"),
           [LineKind.jsonOk].count LineKind.jsonOk)) :=
  ⟨⟨by decide, claim_C7_validation_amended.1 [LineKind.blank] (by decide)⟩,
   ⟨by decide, claim_C7_validation_amended.2 [LineKind.jsonOk] "bad" [] (by decide)⟩⟩

/-- C8 counterexample: `source_mapping.get(source_prefix, source_prefix)`
never lower-cases — the unknown mixed-case prefix `XYZ` maps to itself
unchanged, not to `xyz` as the claim ("themselves lower-cased") predicts. -/
theorem claim_C8_counterexample :
    parse_filename "XYZ_widgets.jsonl" = Except.ok ("XYZ", "widgets")
    ∧ ("XYZ" : String) ≠ "xyz" :=
  ⟨rfl, by decide⟩

/-- C8 (amended): the parser splits on the first delimiter occurrence into
`(source_prefix, table)` and resolves the prefix through the static alias
table, with unknown prefixes mapping to themselves unchanged (no
lower-casing); in particular `sf_accounts.jsonl` yields
`(salesforce, accounts)` and `unknownprefix_widgets.jsonl` yields
`(unknownprefix, widgets)`. -/
theorem claim_C8_alias_amended :
    (∀ s1 s2 : List Char, '_' ∉ s1 →
        splitFirstUnderscore (s1 ++ '_' :: s2) = some (s1, s2))
    ∧ (∀ p : String, source_mapping.lookup p = none → resolveSource p = p)
    ∧ parse_filename "sf_accounts.jsonl" = Except.ok ("salesforce", "accounts")
    ∧ parse_filename "unknownprefix_widgets.jsonl" =
        Except.ok ("unknownprefix", "widgets") := by
  refine ⟨fun s1 s2 h => splitFirstUnderscore_append s2 s1 h, ?_, rfl, rfl⟩
  intro p h
  simp [resolveSource, h]

/-- C8 witness: the split lemma at a concrete string and the pass-through
behaviour at a concrete unknown prefix. -/
theorem claim_C8_alias_amended_witness :
    ('_' ∉ ['a'] ∧ splitFirstUnderscore (['a'] ++ '_' :: ['b']) = some (['a'], ['b']))
    ∧ (source_mapping.lookup "unknownsrc" = none
      ∧ resolveSource "unknownsrc" = "unknownsrc")
    ∧ parse_filename "sf_accounts.jsonl" = Except.ok ("salesforce", "accounts")
    ∧ parse_filename "unknownprefix_widgets.jsonl" =
        Except.ok ("unknownprefix", "widgets") :=
  ⟨⟨by decide, claim_C8_alias_amended.1 ['a'] ['b'] (by decide)⟩,
   ⟨by decide, claim_C8_alias_amended.2.1 "unknownsrc" (by decide)⟩,
   claim_C8_alias_amended.2.2.1, claim_C8_alias_amended.2.2.2⟩

/-- C9: under dry-run with a well-formed run date, the report is identical for
every environment — exit code 0, no crash, and an empty S3 call trace (no
client construction, no `head_bucket` credential/bucket check, no probe, no
upload, no marker) — so the run exits 0 even when credentials are absent or
the bucket does not exist, and no configuration error beyond the run-date
format is ever detected. -/
theorem claim_C9_dry_run_no_client (cfg : Config) (entries : List DirEntry)
    (env : S3Env) (hdate : cfg.runDateValid = true) (hdry : cfg.dryRun = true) :
    mainRun cfg entries env = ⟨false, 0, [], [], [], 0, 0, 0⟩ := by
  by_cases hs : scan_directory entries = [] <;>
    simp [mainRun, hdate, hdry, hs]

/-- C9 witness: dry-run over admitted files with no credentials available. -/
theorem claim_C9_dry_run_no_client_witness :
    cfgDry.runDateValid = true ∧ cfgDry.dryRun = true
    ∧ mainRun cfgDry entriesTwoGroups envNoCreds = ⟨false, 0, [], [], [], 0, 0, 0⟩ :=
  ⟨rfl, rfl, claim_C9_dry_run_no_client cfgDry entriesTwoGroups envNoCreds rfl rfl⟩

/-- C1: in every run that reaches the marking step (valid non-dry-run
configuration, reachable bucket, at least one admitted file, no probe crash),
the trace is a marker-free prefix followed by exactly one `putMarker` per
distinct `(source, table)` group (the group-key list is duplicate-free and
covers exactly the admitted files' groups), each marker carrying the body
`{uploaded_at, file_count, status := "complete"}` with `file_count` equal to
the number of admitted files of that group; every file already has a terminal
outcome by then (one outcome per admitted file, all file events precede every
marker).  The environment is unconstrained on transfer failures, so markers
are emitted even when files in the group failed. -/
theorem claim_C1_marker_completeness (cfg : Config) (entries : List DirEntry)
    (env : S3Env)
    (hdate : cfg.runDateValid = true) (hdry : cfg.dryRun = false)
    (hbucket : env.bucket = BucketCheck.ok)
    (hne : scan_directory entries ≠ [])
    (hsafe : cfg.force = true ∨ ∀ j, (env.file j).probe ≠ ProbeResult.err) :
    (mainRun cfg entries env).crashed = false
    ∧ (mainRun cfg entries env).outcomes.length = (scan_directory entries).length
    ∧ (groupKeys (scan_directory entries)).Nodup
    ∧ (∀ k, k ∈ groupKeys (scan_directory entries) ↔
        k ∈ (scan_directory entries).map groupKey)
    ∧ ∃ pre, (mainRun cfg entries env).events =
          pre ++ (groupKeys (scan_directory entries)).map (fun k =>
            S3Event.putMarker (markerKeyOf cfg.client cfg.runDate k)
              (marker_content env.now (groupCount (scan_directory entries) k)))
        ∧ ∀ e ∈ pre, e.isMarkerWrite = false := by
  obtain ⟨evs, hm, heq⟩ := mainRun_spec cfg entries env hdate hdry hbucket hne hsafe
  rw [heq]
  refine ⟨rfl, ?_, nodup_groupKeys _, fun k => mem_groupKeys _ k, ?_⟩
  · dsimp only
    rw [List.length_map, length_enumFrom]
  · refine ⟨S3Event.createClient :: S3Event.headBucket :: evs, rfl, ?_⟩
    intro e he
    cases he with
    | head => rfl
    | tail _ he =>
      cases he with
      | head => rfl
      | tail _ he => exact hm e he

/-- C1 witness: three files in two groups, every transfer failing — markers
are still emitted, one per group. -/
theorem claim_C1_marker_completeness_witness :
    cfgStd.runDateValid = true ∧ cfgStd.dryRun = false
    ∧ envAllFail.bucket = BucketCheck.ok
    ∧ scan_directory entriesTwoGroups ≠ []
    ∧ (cfgStd.force = true ∨ ∀ j, (envAllFail.file j).probe ≠ ProbeResult.err)
    ∧ ((mainRun cfgStd entriesTwoGroups envAllFail).crashed = false
      ∧ (mainRun cfgStd entriesTwoGroups envAllFail).outcomes.length =
          (scan_directory entriesTwoGroups).length
      ∧ (groupKeys (scan_directory entriesTwoGroups)).Nodup
      ∧ (∀ k, k ∈ groupKeys (scan_directory entriesTwoGroups) ↔
          k ∈ (scan_directory entriesTwoGroups).map groupKey)
      ∧ ∃ pre, (mainRun cfgStd entriesTwoGroups envAllFail).events =
            pre ++ (groupKeys (scan_directory entriesTwoGroups)).map (fun k =>
              S3Event.putMarker (markerKeyOf cfgStd.client cfgStd.runDate k)
                (marker_content envAllFail.now
                  (groupCount (scan_directory entriesTwoGroups) k)))
          ∧ ∀ e ∈ pre, e.isMarkerWrite = false) :=
  ⟨rfl, rfl, rfl, by decide, Or.inr envAllFail_probe_safe,
   claim_C1_marker_completeness cfgStd entriesTwoGroups envAllFail rfl rfl rfl
     (by decide) (Or.inr envAllFail_probe_safe)⟩

/-- C2: for every non-dry-run invocation with valid configuration (well-formed
run date, reachable bucket) in which no existence probe raises, the run does
not crash, each admitted file's outcome is its `fileOutcome`, `failed_count`
counts exactly the `Failed` outcomes, and the exit code is 0 iff
`failed_count = 0` and 1 otherwise — covering the all-skipped case (skips are
not failures) and the zero-admitted case (empty outcome list, exit 0). -/
theorem claim_C2_exit_codes (cfg : Config) (entries : List DirEntry) (env : S3Env)
    (hdate : cfg.runDateValid = true) (hdry : cfg.dryRun = false)
    (hbucket : env.bucket = BucketCheck.ok)
    (hsafe : cfg.force = true ∨ ∀ j, (env.file j).probe ≠ ProbeResult.err) :
    (mainRun cfg entries env).crashed = false
    ∧ (mainRun cfg entries env).outcomes =
        ((scan_directory entries).enumFrom 0).map (fun p =>
          fileOutcome cfg.force cfg.compress
            (keyOf cfg.client cfg.runDate cfg.compress p.2) (env.file p.1))
    ∧ (mainRun cfg entries env).failedCount =
        (mainRun cfg entries env).outcomes.count UploadOutcome.failed
    ∧ (mainRun cfg entries env).exitCode =
        (if (mainRun cfg entries env).failedCount = 0 then 0 else 1) := by
  by_cases hne : scan_directory entries = []
  · rw [mainRun, hdate, if_neg (by simp), if_pos hne]
    refine ⟨rfl, ?_, rfl, rfl⟩
    rw [hne]
    rfl
  · obtain ⟨evs, hm, heq⟩ := mainRun_spec cfg entries env hdate hdry hbucket hne hsafe
    rw [heq]
    exact ⟨rfl, rfl, rfl, rfl⟩

/-- C2 witness: one admitted file whose transfer fails — exit code 1. -/
theorem claim_C2_exit_codes_witness :
    cfgStd.runDateValid = true ∧ cfgStd.dryRun = false
    ∧ envAllFail.bucket = BucketCheck.ok
    ∧ (cfgStd.force = true ∨ ∀ j, (envAllFail.file j).probe ≠ ProbeResult.err)
    ∧ ((mainRun cfgStd entriesOne envAllFail).crashed = false
      ∧ (mainRun cfgStd entriesOne envAllFail).outcomes =
          ((scan_directory entriesOne).enumFrom 0).map (fun p =>
            fileOutcome cfgStd.force cfgStd.compress
              (keyOf cfgStd.client cfgStd.runDate cfgStd.compress p.2)
              (envAllFail.file p.1))
      ∧ (mainRun cfgStd entriesOne envAllFail).failedCount =
          (mainRun cfgStd entriesOne envAllFail).outcomes.count UploadOutcome.failed
      ∧ (mainRun cfgStd entriesOne envAllFail).exitCode =
          (if (mainRun cfgStd entriesOne envAllFail).failedCount = 0 then 0 else 1)) :=
  ⟨rfl, rfl, rfl, Or.inr envAllFail_probe_safe,
   claim_C2_exit_codes cfgStd entriesOne envAllFail rfl rfl rfl
     (Or.inr envAllFail_probe_safe)⟩

/-- C3 counterexample: one admitted file uploads successfully but the marker
`put_object` fails; `upload_success_marker` returns `False`, `main` only logs
it, `failed_count` stays 0 — so the process exit code is 0, refuting the
claim that a failed marker write makes the exit code non-zero. -/
theorem claim_C3_counterexample :
    (mainRun cfgStd entriesOne envMarkerFail).failedCount = 0
    ∧ (mainRun cfgStd entriesOne envMarkerFail).markerResults = [false]
    ∧ (mainRun cfgStd entriesOne envMarkerFail).crashed = false
    ∧ (mainRun cfgStd entriesOne envMarkerFail).exitCode = 0 :=
  ⟨rfl, rfl, rfl, rfl⟩

/-- C3 (amended): when a completion-marker write fails, the marker's outcome
is `Failed` (its entry in `markerResults` is `false`), the run continues (no
crash; every group's marker write is still attempted, in order), but the
process exit code is unaffected by marker failures: it equals the exit code
of the same run with any other marker oracle, and is therefore 0 whenever no
file upload failed. -/
theorem claim_C3_marker_failure_amended (cfg : Config) (entries : List DirEntry)
    (env : S3Env) (mo : String → Bool)
    (hdate : cfg.runDateValid = true) (hdry : cfg.dryRun = false)
    (hbucket : env.bucket = BucketCheck.ok)
    (hsafe : cfg.force = true ∨ ∀ j, (env.file j).probe ≠ ProbeResult.err) :
    (mainRun cfg entries ⟨env.bucket, env.file, mo, env.now⟩).crashed = false
    ∧ (mainRun cfg entries ⟨env.bucket, env.file, mo, env.now⟩).markerResults =
        (groupKeys (scan_directory entries)).map (fun k =>
          mo (markerKeyOf cfg.client cfg.runDate k))
    ∧ (mainRun cfg entries ⟨env.bucket, env.file, mo, env.now⟩).exitCode =
        (mainRun cfg entries env).exitCode := by
  by_cases hne : scan_directory entries = []
  · have h0 : ∀ e : S3Env, mainRun cfg entries e = ⟨false, 0, [], [], [], 0, 0, 0⟩ := by
      intro e
      rw [mainRun, hdate, if_neg (by simp), if_pos hne]
    rw [h0, h0]
    refine ⟨rfl, ?_, rfl⟩
    rw [hne]
    rfl
  · obtain ⟨evs1, hm1, heq1⟩ := mainRun_spec cfg entries env hdate hdry hbucket hne hsafe
    obtain ⟨evs2, hm2, heq2⟩ :=
      mainRun_spec cfg entries ⟨env.bucket, env.file, mo, env.now⟩ hdate hdry hbucket hne hsafe
    rw [heq1, heq2]
    exact ⟨rfl, rfl, rfl⟩

/-- C3 witness: healthy uploads, every marker write failing — the marker
results are all `false` while the exit code matches the all-healthy run. -/
theorem claim_C3_marker_failure_amended_witness :
    cfgStd.runDateValid = true ∧ cfgStd.dryRun = false
    ∧ envOk.bucket = BucketCheck.ok
    ∧ (cfgStd.force = true ∨ ∀ j, (envOk.file j).probe ≠ ProbeResult.err)
    ∧ ((mainRun cfgStd entriesOne ⟨envOk.bucket, envOk.file, fun _ => false, envOk.now⟩).crashed = false
      ∧ (mainRun cfgStd entriesOne ⟨envOk.bucket, envOk.file, fun _ => false, envOk.now⟩).markerResults =
          (groupKeys (scan_directory entriesOne)).map (fun k =>
            (fun _ => false : String → Bool) (markerKeyOf cfgStd.client cfgStd.runDate k))
      ∧ (mainRun cfgStd entriesOne ⟨envOk.bucket, envOk.file, fun _ => false, envOk.now⟩).exitCode =
          (mainRun cfgStd entriesOne envOk).exitCode) :=
  ⟨rfl, rfl, rfl, Or.inr envOk_probe_safe,
   claim_C3_marker_failure_amended cfgStd entriesOne envOk (fun _ => false) rfl rfl rfl
     (Or.inr envOk_probe_safe)⟩

/-- C5 counterexample: two further admitted files follow the first, whose
existence probe raises a non-404 error; `check_file_exists` re-raises, `main`
has no handler around the loop, so the run crashes at the first file — its
outcome never becomes `Failed` (the outcome list is empty) and the remaining
files are never processed (the trace ends with the first probe), refuting
"the error is local to that file". -/
theorem claim_C5_counterexample :
    mainRun cfgStd entriesTwoGroups envProbeErr =
      ⟨true, 1,
       [S3Event.createClient, S3Event.headBucket,
        S3Event.headObject
          "clients/wise/stripe/customers/run_date=2025-12-17/stripe_customers.jsonl.gz"],
       [], [], 0, 0, 0⟩ := rfl

/-- C5 (amended): errors during the upload step of a single admitted file are
local to that file — with no probe error the run never crashes, every admitted
file receives a terminal outcome, and any file that reaches the upload
(forced, or probed absent) and whose `upload_file` returns `False` gets
outcome `Failed` at its own position, whatever the upload environment does to
the other files — but an error raised by the existence probe is not local:
without `force`, the first file whose probe raises, at any position in the
batch, makes the run crash with an uncaught exception and no outcome at all is
recorded for any file. -/
theorem claim_C5_error_locality_amended (cfg : Config) (entries : List DirEntry)
    (env : S3Env)
    (hdate : cfg.runDateValid = true) (hdry : cfg.dryRun = false)
    (hbucket : env.bucket = BucketCheck.ok) :
    ((cfg.force = true ∨ ∀ j, (env.file j).probe ≠ ProbeResult.err) →
      (mainRun cfg entries env).crashed = false
      ∧ (mainRun cfg entries env).outcomes.length = (scan_directory entries).length
      ∧ ∀ (i : Nat) (f : FileMeta),
          (scan_directory entries).get? i = some f →
          (cfg.force = true ∨ (env.file i).probe = ProbeResult.notFound) →
          (upload_file cfg.compress false
            (keyOf cfg.client cfg.runDate cfg.compress f) (env.file i)).success = false →
          (mainRun cfg entries env).outcomes.get? i = some UploadOutcome.failed)
    ∧ (cfg.force = false →
      ∀ (i : Nat) (f : FileMeta),
        (scan_directory entries).get? i = some f →
        (env.file i).probe = ProbeResult.err →
        (∀ j, j < i → (env.file j).probe ≠ ProbeResult.err) →
        (mainRun cfg entries env).crashed = true
        ∧ (mainRun cfg entries env).outcomes = []) := by
  constructor
  · intro hsafe
    by_cases hne : scan_directory entries = []
    · rw [mainRun, hdate, if_neg (by simp), if_pos hne]
      refine ⟨rfl, by rw [hne]; rfl, ?_⟩
      intro i f hget
      rw [hne] at hget
      simp at hget
    · obtain ⟨evs, hm, heq⟩ := mainRun_spec cfg entries env hdate hdry hbucket hne hsafe
      rw [heq]
      refine ⟨rfl, ?_, ?_⟩
      · dsimp only
        rw [List.length_map, length_enumFrom]
      · intro i f hget hreach hfail
        have hout := fileOutcome_failed cfg.force cfg.compress
          (keyOf cfg.client cfg.runDate cfg.compress f) (env.file i) hreach hfail
        dsimp only
        rw [List.get?_map, get?_enumFrom, hget]
        simp [hout]
  · intro hforce i f hget hperr hprev
    have hne : scan_directory entries ≠ [] := by
      intro h
      rw [h] at hget
      simp at hget
    obtain ⟨evs, hcr⟩ := uploadLoop_crash cfg.client cfg.runDate cfg.compress env.file
      (scan_directory entries) 0 i f hget (by simpa using hperr)
      (fun j hj => by simpa using hprev j hj)
    rw [mainRun, hdate, if_neg (by simp), if_neg hne, hdry, if_neg (by simp), hbucket]
    dsimp only
    rw [hforce, hcr]
    exact ⟨rfl, rfl⟩

/-- C5 witness: both halves exercised for real — under `envAllFail` the single
admitted file reaches the upload, its transfer fails, and its recorded outcome
at position 0 is `Failed` while the run completes; under `envProbeErr` the
probe of the file at position 0 raises and the run crashes with no outcome
recorded. -/
theorem claim_C5_error_locality_amended_witness :
    cfgStd.runDateValid = true ∧ cfgStd.dryRun = false
    ∧ envAllFail.bucket = BucketCheck.ok ∧ envProbeErr.bucket = BucketCheck.ok
    ∧ ((cfgStd.force = true ∨ ∀ j, (envAllFail.file j).probe ≠ ProbeResult.err)
      ∧ (scan_directory entriesOne).get? 0 =
          some ⟨"stripe_customers.jsonl", "stripe", "customers"⟩
      ∧ (cfgStd.force = true ∨ (envAllFail.file 0).probe = ProbeResult.notFound)
      ∧ (upload_file cfgStd.compress false
          (keyOf cfgStd.client cfgStd.runDate cfgStd.compress
            ⟨"stripe_customers.jsonl", "stripe", "customers"⟩)
          (envAllFail.file 0)).success = false
      ∧ (mainRun cfgStd entriesOne envAllFail).crashed = false
      ∧ (mainRun cfgStd entriesOne envAllFail).outcomes.get? 0 =
          some UploadOutcome.failed)
    ∧ (cfgStd.force = false
      ∧ (envProbeErr.file 0).probe = ProbeResult.err
      ∧ (∀ j, j < 0 → (envProbeErr.file j).probe ≠ ProbeResult.err)
      ∧ (mainRun cfgStd entriesOne envProbeErr).crashed = true
      ∧ (mainRun cfgStd entriesOne envProbeErr).outcomes = []) :=
  ⟨rfl, rfl, rfl, rfl,
   ⟨Or.inr envAllFail_probe_safe, rfl, Or.inr rfl, rfl,
    (claim_C5_error_locality_amended cfgStd entriesOne envAllFail rfl rfl rfl).1
      (Or.inr envAllFail_probe_safe) |>.1,
    ((claim_C5_error_locality_amended cfgStd entriesOne envAllFail rfl rfl rfl).1
      (Or.inr envAllFail_probe_safe)).2.2 0
      ⟨"stripe_customers.jsonl", "stripe", "customers"⟩ rfl (Or.inr rfl) rfl⟩,
   ⟨rfl, rfl, fun j hj => absurd hj (Nat.not_lt_zero j),
    ((claim_C5_error_locality_amended cfgStd entriesOne envProbeErr rfl rfl rfl).2
      rfl 0 ⟨"stripe_customers.jsonl", "stripe", "customers"⟩ rfl rfl
      (fun j hj => absurd hj (Nat.not_lt_zero j))).1,
    ((claim_C5_error_locality_amended cfgStd entriesOne envProbeErr rfl rfl rfl).2
      rfl 0 ⟨"stripe_customers.jsonl", "stripe", "customers"⟩ rfl rfl
      (fun j hj => absurd hj (Nat.not_lt_zero j))).2⟩⟩
